import Mathlib

/-!
# A shallow embedding of the `netem` host-network facade and DPI throttle rule

This file embeds, in Lean, the Go code of:

* `net.go` — the `Net` facade (`DialContext`, `DialTLSContext`,
  `tlsHandshake`, `LookupHost`, `ListenTLS` / `netListenerTLS.Accept`)
  together with the `ErrDial` aggregate error and its `errors.Is`
  behaviour;
* `dpithrottle.go` — the `DPIThrottleTrafficForTLSSNI` DPI rule.

External collaborators (the Go standard library's `net.SplitHostPort`,
`net.ParseIP`, `net.JoinHostPort`, and the `UnderlyingNetwork` stack) are
modelled as parameters: the facade is proved correct for every behaviour
of those collaborators.  Side effects (which stack operations were
invoked, which connection-level operations such as `SetDeadline`/`Close`
happened, and in which order) are made explicit as event traces returned
alongside each result, so that claims about "no resolver call is made" or
"the connection is closed before returning" are directly statable.
-/

namespace Netem

/-! ## Go error values

Go `error` values relevant to `net.go`: sentinel errors created once
(`errors.New`, `context.Canceled`, ...), single-wrap errors created by
`fmt.Errorf("%s: %w", annotation, inner)`, and the `ErrDial` aggregate.
Every allocation carries a reference number `ref` standing for the Go
pointer identity of the allocation: two Go error values are `==` iff the
embedding gives them the same `ref` (distinct allocations get distinct
refs wherever a statement compares them by identity; the errors the
facade model itself allocates all carry `ref 0`, as no verified statement
compares those fresh allocations against a target by identity — they are
matched through their children or inner errors).  -/

inductive GoError where
  /-- A sentinel error allocated once, e.g. `context.Canceled`. -/
  | base (ref : Nat)
  /-- `fmt.Errorf("%s: %w", ann, inner)`: a single-unwrap error whose
  message is prefixed by the annotation `ann`. -/
  | wrapf (ref : Nat) (ann : String) (inner : GoError)
  /-- `&ErrDial{Errors: children}` from `net.go`. -/
  | errDial (ref : Nat) (children : List GoError)

/-- The allocation identity of a Go error value. -/
def GoError.ref : GoError → Nat
  | .base r => r
  | .wrapf r _ _ => r
  | .errDial r _ => r

mutual

/-- Go's `errors.Is(err, target)` specialised to the error shapes of
`net.go`: at each node first the `err == target` comparison (pointer
identity, i.e. `ref` equality), then the node's own `Is` method when it
has one (`ErrDial.Is` scans the children), then the `Unwrap` chain
(`wrapf` unwraps to its inner error; `base` and `errDial` do not
unwrap). -/
def errorsIs : GoError → GoError → Bool
  | .base r, t => r == t.ref
  | .wrapf r _ inner, t => r == t.ref || errorsIs inner t
  | .errDial r children, t => r == t.ref || ErrDial.Is children t

/-- The `Is` method of `ErrDial` (net.go line 46): true iff `errors.Is`
matches the target against some child in `Errors`. -/
def ErrDial.Is : List GoError → GoError → Bool
  | [], _ => false
  | child :: rest, t => errorsIs child t || ErrDial.Is rest t

end

/-! ## The DPI throttle rule (`dpithrottle.go`)

The packet dissector lives outside the embedded sources; a dissected
packet is therefore modelled by its observable fields: the transport
protocol number, the outcome of `parseTLSServerName` (`some sni` when the
parse succeeds, `none` when it returns an error), and the endpoint fields
that `Filter` only reads for logging. -/

/-- `layers.IPProtocolTCP` (protocol number 6). -/
def IPProtocolTCP : Nat := 6

/-- `layers.IPProtocolUDP` (protocol number 17). -/
def IPProtocolUDP : Nat := 17

/-- The direction of a packet with respect to the flow's initiator. -/
inductive DPIDirection where
  | clientToServer
  | serverToClient
deriving DecidableEq

/-- The observable fields of a `DissectedPacket` read by
`DPIThrottleTrafficForTLSSNI.Filter`. -/
structure DissectedPacket where
  /-- `packet.TransportProtocol()`, an IP protocol number. -/
  transportProtocol : Nat
  /-- The outcome of `packet.parseTLSServerName()`: `some sni` when the
  TLS ClientHello server name parses, `none` when it errors. -/
  tlsServerName : Option String
  /-- `packet.SourceIPAddress()` — read only for logging. -/
  sourceIPAddress : String
  /-- `packet.DestinationIPAddress()` — read only for logging. -/
  destinationIPAddress : String
  /-- `packet.SourcePort()` — read only for logging. -/
  sourcePort : Nat
  /-- `packet.DestinationPort()` — read only for logging. -/
  destinationPort : Nat
deriving DecidableEq

/-- The policy verdict emitted by a matching DPI rule. -/
structure DPIPolicy where
  /-- Extra one-way delay (nanoseconds). -/
  Delay : Int
  /-- Policy flags; `0` is the NONE / default value. -/
  Flags : Int
  /-- Extra packet loss rate. -/
  PLR : ℚ
deriving DecidableEq

/-- The NONE policy flags value: the zero value of the flags field,
requesting no special handling. -/
def DPIFlagsNone : Int := 0

/-- `DPIThrottleTrafficForTLSSNI` (dpithrottle.go).  The `Logger` field
only receives a diagnostic message and does not influence the verdict;
it is omitted from the model. -/
structure DPIThrottleTrafficForTLSSNI where
  /-- The extra packet loss rate to apply. -/
  PLR : ℚ
  /-- The offending SNI. -/
  SNI : String
deriving DecidableEq

/-- `DPIThrottleTrafficForTLSSNI.Filter` (dpithrottle.go line 26): the Go
method returns the pair `(*DPIPolicy, bool)`, modelled as
`Option DPIPolicy × Bool`. -/
def DPIThrottleTrafficForTLSSNI.Filter (r : DPIThrottleTrafficForTLSSNI)
    (direction : DPIDirection) (packet : DissectedPacket) :
    Option DPIPolicy × Bool :=
  -- short circuit for the return path
  if direction ≠ DPIDirection.clientToServer then (none, false)
  -- short circuit for UDP packets
  else if packet.transportProtocol ≠ IPProtocolTCP then (none, false)
  else
    -- try to obtain the SNI
    match packet.tlsServerName with
    | none => (none, false)
    | some sni =>
      -- if the packet is not offending, accept it
      if sni ≠ r.SNI then (none, false)
      else (some { Delay := 0, Flags := DPIFlagsNone, PLR := r.PLR }, true)

/-! ## Contexts, connections and the underlying stack

`context.Context` is modelled by its two observables used in `net.go`:
whether `ctx.Done()` is closed (and the error `ctx.Err()` then returns),
and the deadline.  A `net.Conn` is an abstract handle; a nil Go
interface value is `Option.none`.  The `UnderlyingNetwork` collaborator
is a record of response functions, and the facade returns alongside its
result the list of stack operations it invoked, in invocation order. -/

/-- The observables of a `context.Context`. -/
structure Context where
  /-- Whether `ctx.Done()` is closed (`ctx.Err() != nil`). -/
  canceled : Bool
  /-- `ctx.Deadline()`: `some t` when a deadline is set (`ok == true`),
  in nanoseconds on an absolute clock. -/
  deadline : Option Int
  /-- The sentinel returned by `ctx.Err()` once the context is done
  (`context.Canceled` or `context.DeadlineExceeded`). -/
  err : GoError

/-- An abstract `net.Conn` handle returned by the underlying stack.  A
Go nil interface value is modelled as `Option.none` at use sites. -/
structure Conn where
  id : Nat
deriving DecidableEq

/-- An abstract `*x509.CertPool` handle. -/
structure CertPool where
  id : Nat
deriving DecidableEq

/-- One operation invoked on the underlying stack by the facade. -/
inductive StackCall where
  /-- `Stack.GetaddrinfoLookupANY(ctx, domain)`. -/
  | getaddrinfoLookupANY (domain : String)
  /-- `Stack.DialContext(ctx, network, endpoint)`. -/
  | dialContext (network : String) (endpoint : String)
deriving DecidableEq

/-- The `UnderlyingNetwork` collaborator, as a record of response
functions (the operations of the stack that `net.go` invokes). -/
structure UnderlyingNetwork where
  /-- `DialContext(ctx, network, endpoint)` returns a `(conn, err)`
  pair; either component may be nil. -/
  DialContext : Context → String → String → Option Conn × Option GoError
  /-- `GetaddrinfoLookupANY(ctx, domain)` returns `(addrs, cname, err)`. -/
  GetaddrinfoLookupANY : Context → String → List String × String × Option GoError
  /-- `DefaultCertPool()`. -/
  DefaultCertPool : CertPool

/-- The behaviour of the Go standard library's address helpers used by
`net.go`; the facade is verified for every behaviour of these. -/
structure NetStdlib where
  /-- `net.SplitHostPort(address)` returns `(host, port, err)`. -/
  SplitHostPort : String → (String × String) × Option GoError
  /-- Whether `net.ParseIP(s)` returns non-nil, i.e. `s` is a literal
  IP address. -/
  ParseIPIsLiteral : String → Bool
  /-- `net.JoinHostPort(host, port)`. -/
  JoinHostPort : String → String → String

/-- `Net` (net.go line 19): the facade over an underlying stack. -/
structure Net where
  /-- The MANDATORY underlying stack. -/
  Stack : UnderlyingNetwork

/-- `Net.LookupHost` (net.go line 132): one `GetaddrinfoLookupANY` call;
returns `(addrs, err)` together with the stack-call trace. -/
def Net.LookupHost (n : Net) (ctx : Context) (domain : String) :
    (List String × Option GoError) × List StackCall :=
  match n.Stack.GetaddrinfoLookupANY ctx domain with
  | (addrs, _cname, err) => ((addrs, err), [StackCall.getaddrinfoLookupANY domain])

/-- `Net.LookupCNAME` (net.go line 138): the same single call, keeping
the canonical name. -/
def Net.LookupCNAME (n : Net) (ctx : Context) (domain : String) :
    (String × Option GoError) × List StackCall :=
  match n.Stack.GetaddrinfoLookupANY ctx domain with
  | (_addrs, cname, err) => ((cname, err), [StackCall.getaddrinfoLookupANY domain])

/-- The `for _, ip := range addresses` loop of `Net.DialContext`
(net.go lines 77–85).  Result components: `some conn` when some attempt
returned a nil error (the loop `return conn, nil` path, `conn` itself
possibly nil) or `none` when every attempt failed; the `errlist.Errors`
accumulated so far, one `fmt.Errorf("%s: %w", endpoint, err)` per failed
attempt in attempt order; and the stack calls made. -/
def Net.dialAttempts (env : NetStdlib) (n : Net) (ctx : Context)
    (network port : String) :
    List String → Option (Option Conn) × List GoError × List StackCall
  | [] => (none, [], [])
  | ip :: rest =>
    let endpoint := env.JoinHostPort ip port
    match n.Stack.DialContext ctx network endpoint with
    | (conn, none) => (some conn, [], [StackCall.dialContext network endpoint])
    | (_, some err) =>
      match Net.dialAttempts env n ctx network port rest with
      | (res, errs, calls) =>
        (res, GoError.wrapf 0 endpoint err :: errs,
          StackCall.dialContext network endpoint :: calls)

/-- `Net.DialContext` (net.go line 56).  The Go method returns the pair
`(net.Conn, error)`; the model also returns the trace of stack calls. -/
def Net.DialContext (env : NetStdlib) (n : Net) (ctx : Context)
    (network address : String) :
    (Option Conn × Option GoError) × List StackCall :=
  -- determine the domain or IP address we're connecting to
  match env.SplitHostPort address with
  | (_, some err) => ((none, some err), [])
  | ((domain, port), none) =>
    -- make sure we have IP addresses to try: a literal IP is used as
    -- given; otherwise LookupHost resolves the domain
    match
      (if env.ParseIPIsLiteral domain then (([domain], none), [])
       else n.LookupHost ctx domain :
        (List String × Option GoError) × List StackCall) with
    | ((_, some err), lookupCalls) => ((none, some err), lookupCalls)
    | ((addresses, none), lookupCalls) =>
      -- try each available address
      match Net.dialAttempts env n ctx network port addresses with
      | (some conn, _, dialCalls) => ((conn, none), lookupCalls ++ dialCalls)
      | (none, errs, dialCalls) =>
        ((none, some (GoError.errDial 0 errs)), lookupCalls ++ dialCalls)

/-! ## TLS dialing (`Net.DialTLSContext`, `Net.tlsHandshake`)

`tls.Client(conn, config)` always yields a fresh `*tls.Conn` wrapping the
(possibly nil) underlying connection; the model keeps the config fields
that `net.go` sets.  `tlsHandshake` launches `tc.HandshakeContext(ctx)`
in a background goroutine and `select`s between `ctx.Done()` and the
goroutine's result; which of the two fires first is scheduler- and
network-dependent, so it is a parameter (`HandshakeOutcome`) of the
model.  The connection-level side effects are returned as an ordered
event trace. -/

/-- A `*tls.Conn` produced by `tls.Client`, carrying the config fields
set by `Net.DialTLSContext`. -/
structure TLSClientConn where
  /-- The wrapped `net.Conn` (nil Go interface is `none`). -/
  underlying : Option Conn
  /-- `config.RootCAs`. -/
  RootCAs : CertPool
  /-- `config.ServerName`. -/
  ServerName : String
deriving DecidableEq

/-- An abstract server-side `*tls.Config` handle. -/
structure TLSConfig where
  id : Nat
deriving DecidableEq

/-- A `*tls.Conn` produced by `tls.Server`. -/
structure TLSServerConn where
  /-- The wrapped accepted `net.Conn`. -/
  underlying : Option Conn
  /-- The listener's TLS configuration. -/
  config : TLSConfig
deriving DecidableEq

/-- A connection-level side effect, in temporal order within a trace. -/
inductive ConnEvent where
  /-- `tc.SetDeadline(t)` on a client TLS connection: `some t` sets the
  deadline `t`, `none` is `tc.SetDeadline(time.Time{})`, clearing it. -/
  | setDeadline (tc : TLSClientConn) (t : Option Int)
  /-- The background goroutine running `tc.HandshakeContext(ctx)` was
  started. -/
  | clientHandshakeStart (tc : TLSClientConn)
  /-- `conn.Close()` on the underlying connection. -/
  | closeConn (conn : Option Conn)
  /-- `tc.HandshakeContext(ctx)` on a server TLS connection, under a
  context whose deadline is `ctxDeadline`. -/
  | serverHandshake (tc : TLSServerConn) (ctxDeadline : Option Int)
deriving DecidableEq

/-- Which arm of the `select` in `Net.tlsHandshake` fires first. -/
inductive HandshakeOutcome where
  /-- `<-ctx.Done()` fired first (the context was cancelled or its
  deadline passed while the handshake was still in flight). -/
  | ctxDone
  /-- The handshake goroutine delivered its result first: `err` is the
  value of `tc.HandshakeContext(ctx)` (`none` on success). -/
  | completed (err : Option GoError)

/-- `Net.tlsHandshake` (net.go line 114): when the context carries a
deadline it is set as the connection's read/write deadline and cleared
(deferred) on return; the handshake runs in a background goroutine and
the function returns on whichever of context completion or handshake
completion happens first. -/
def Net.tlsHandshake (ctx : Context) (tc : TLSClientConn)
    (outcome : HandshakeOutcome) : Option GoError × List ConnEvent :=
  let result : Option GoError :=
    match outcome with
    | .ctxDone => some ctx.err
    | .completed err => err
  match ctx.deadline with
  | some d =>
    (result,
      [ConnEvent.setDeadline tc (some d), ConnEvent.clientHandshakeStart tc,
        ConnEvent.setDeadline tc none])
  | none => (result, [ConnEvent.clientHandshakeStart tc])

/-- `Net.DialTLSContext` (net.go line 91): splits the address to learn
the pre-resolution hostname, dials via `Net.DialContext`, builds the TLS
client with `RootCAs := Stack.DefaultCertPool()` and
`ServerName := hostname`, and runs `tlsHandshake`; on handshake error the
underlying connection is closed before returning. -/
def Net.DialTLSContext (env : NetStdlib) (n : Net) (ctx : Context)
    (network address : String) (outcome : HandshakeOutcome) :
    (Option TLSClientConn × Option GoError) × List StackCall × List ConnEvent :=
  match env.SplitHostPort address with
  | (_, some err) => ((none, some err), [], [])
  | ((hostname, _), none) =>
    match Net.DialContext env n ctx network address with
    | ((_, some err), calls) => ((none, some err), calls, [])
    | ((conn, none), calls) =>
      let tc : TLSClientConn :=
        { underlying := conn, RootCAs := n.Stack.DefaultCertPool,
          ServerName := hostname }
      match Net.tlsHandshake ctx tc outcome with
      | (some err, events) =>
        -- closing the conn here unblocks the background goroutine
        ((none, some err), calls, events ++ [ConnEvent.closeConn conn])
      | (none, events) => ((some tc, none), calls, events)

/-! ## The TLS listener (`netListenerTLS.Accept`)

`Accept` wraps one `listener.Accept()` result; the server handshake runs
under a fresh `context.WithTimeout(context.Background(), 10*time.Second)`
context, so its deadline is ten seconds from the current instant `now`,
whatever the caller's own deadlines are.  The handshake result is a
parameter: a function of the deadline the context carries. -/

/-- `10 * time.Second` in nanoseconds. -/
def tenSeconds : Int := 10000000000

/-- `netListenerTLS` (net.go line 169), keeping the field that `Accept`
reads besides the wrapped listener. -/
structure NetListenerTLS where
  /-- The TLS configuration passed to `Net.ListenTLS`. -/
  config : TLSConfig

/-- `netListenerTLS.Accept` (net.go line 178), as a function of the
wrapped listener's `Accept()` result `acceptRes`, the current instant
`now`, and the server handshake behaviour `handshake` (the result of
`tc.HandshakeContext(ctx)` as a function of the context's deadline). -/
def NetListenerTLS.Accept (lw : NetListenerTLS) (now : Int)
    (acceptRes : Option Conn × Option GoError)
    (handshake : Option Int → Option GoError) :
    (Option TLSServerConn × Option GoError) × List ConnEvent :=
  match acceptRes with
  | (_, some err) => ((none, some err), [])
  | (conn, none) =>
    let tc : TLSServerConn := { underlying := conn, config := lw.config }
    -- make sure there is a maximum timeout for the handshake
    let hsDeadline : Option Int := some (now + tenSeconds)
    match handshake hsDeadline with
    | some err =>
      ((none, some err),
        [ConnEvent.serverHandshake tc hsDeadline, ConnEvent.closeConn conn])
    | none => ((some tc, none), [ConnEvent.serverHandshake tc hsDeadline])

/-! ## Lemmas about the dial loop -/

/-- The endpoint used for one attempt: `net.JoinHostPort(ip, port)`. -/
def attemptEndpoint (env : NetStdlib) (port ip : String) : String :=
  env.JoinHostPort ip port

/-- The error recorded for a failed attempt to `ip`:
`fmt.Errorf("%s: %w", endpoint, err)`. -/
def attemptWrap (env : NetStdlib) (n : Net) (ctx : Context)
    (network port ip : String) : GoError :=
  GoError.wrapf 0 (attemptEndpoint env port ip)
    ((n.Stack.DialContext ctx network (attemptEndpoint env port ip)).2.getD
      (GoError.base 0))

/-- The stack call recorded for an attempt to `ip`. -/
def attemptCall (env : NetStdlib) (network port ip : String) : StackCall :=
  StackCall.dialContext network (attemptEndpoint env port ip)

theorem dialAttempts_all_fail (env : NetStdlib) (n : Net) (ctx : Context)
    (network port : String) (addresses : List String)
    (h : ∀ ip ∈ addresses,
      (n.Stack.DialContext ctx network (attemptEndpoint env port ip)).2.isSome) :
    Net.dialAttempts env n ctx network port addresses =
      (none, addresses.map (attemptWrap env n ctx network port),
        addresses.map (attemptCall env network port)) := by
  induction addresses with
  | nil => rfl
  | cons ip rest ih =>
    have hip := h ip (List.mem_cons_self ip rest)
    have hrest : ∀ a ∈ rest,
        (n.Stack.DialContext ctx network (attemptEndpoint env port a)).2.isSome :=
      fun a ha => h a (List.mem_cons_of_mem ip ha)
    obtain ⟨c, e, hce⟩ : ∃ c e,
        n.Stack.DialContext ctx network (attemptEndpoint env port ip) =
          (c, some e) := by
      rcases hd : n.Stack.DialContext ctx network (attemptEndpoint env port ip)
        with ⟨c, e⟩
      rw [hd] at hip
      cases e with
      | none => simp at hip
      | some e => exact ⟨c, e, rfl⟩
    simp only [Net.dialAttempts, attemptEndpoint] at hce ⊢
    rw [hce, ih hrest]
    simp [attemptWrap, attemptCall, attemptEndpoint, hce]

theorem dialAttempts_first_success (env : NetStdlib) (n : Net) (ctx : Context)
    (network port : String) (pre : List String) (ip : String)
    (rest : List String) (c : Option Conn)
    (hpre : ∀ a ∈ pre,
      (n.Stack.DialContext ctx network (attemptEndpoint env port a)).2.isSome)
    (hip : n.Stack.DialContext ctx network (attemptEndpoint env port ip) =
      (c, none)) :
    Net.dialAttempts env n ctx network port (pre ++ ip :: rest) =
      (some c, pre.map (attemptWrap env n ctx network port),
        pre.map (attemptCall env network port) ++
          [attemptCall env network port ip]) := by
  induction pre with
  | nil =>
    simp only [List.nil_append, Net.dialAttempts, attemptEndpoint] at hip ⊢
    rw [hip]
    simp [attemptCall, attemptEndpoint]
  | cons a pre ih =>
    have ha := hpre a (List.mem_cons_self a pre)
    have hpre' : ∀ b ∈ pre,
        (n.Stack.DialContext ctx network (attemptEndpoint env port b)).2.isSome :=
      fun b hb => hpre b (List.mem_cons_of_mem a hb)
    obtain ⟨c', e, hce⟩ : ∃ c' e,
        n.Stack.DialContext ctx network (attemptEndpoint env port a) =
          (c', some e) := by
      rcases hd : n.Stack.DialContext ctx network (attemptEndpoint env port a)
        with ⟨c', e⟩
      rw [hd] at ha
      cases e with
      | none => simp at ha
      | some e => exact ⟨c', e, rfl⟩
    simp only [List.cons_append, Net.dialAttempts, attemptEndpoint] at hce ⊢
    rw [hce]
    simp only [List.append_eq]
    rw [ih hpre']
    simp [attemptWrap, attemptCall, attemptEndpoint, hce]

theorem dialAttempts_calls_shape (env : NetStdlib) (n : Net) (ctx : Context)
    (network port : String) (addresses : List String) :
    ∀ call ∈ (Net.dialAttempts env n ctx network port addresses).2.2,
      ∃ ip ∈ addresses, call = attemptCall env network port ip := by
  induction addresses with
  | nil => intro call hcall; simp [Net.dialAttempts] at hcall
  | cons ip rest ih =>
    intro call hcall
    simp only [Net.dialAttempts] at hcall
    rcases hd : n.Stack.DialContext ctx network (env.JoinHostPort ip port)
      with ⟨c, e⟩
    rw [hd] at hcall
    cases e with
    | none =>
      simp only [List.mem_singleton] at hcall
      exact ⟨ip, List.mem_cons_self ip rest,
        by simp [hcall, attemptCall, attemptEndpoint]⟩
    | some e =>
      rcases hrec : Net.dialAttempts env n ctx network port rest
        with ⟨res, errs, calls⟩
      rw [hrec] at hcall
      simp only [List.mem_cons] at hcall
      rcases hcall with h | h
      · exact ⟨ip, List.mem_cons_self ip rest,
          by simp [h, attemptCall, attemptEndpoint]⟩
      · obtain ⟨b, hb, hcall⟩ := ih call (by rw [hrec]; exact h)
        exact ⟨b, List.mem_cons_of_mem ip hb, hcall⟩

/-- How `Net.DialContext` reduces once the address splits cleanly and
the address list is determined (either the literal IP, or a successful
resolution). -/
theorem DialContext_eq (env : NetStdlib) (n : Net) (ctx : Context)
    (network address domain port : String) (addresses : List String)
    (lookupCalls : List StackCall)
    (hsplit : env.SplitHostPort address = ((domain, port), none))
    (haddrs :
      (env.ParseIPIsLiteral domain = true ∧ addresses = [domain] ∧
        lookupCalls = []) ∨
      (env.ParseIPIsLiteral domain = false ∧
        (∃ cname, n.Stack.GetaddrinfoLookupANY ctx domain =
          (addresses, cname, none)) ∧
        lookupCalls = [StackCall.getaddrinfoLookupANY domain])) :
    Net.DialContext env n ctx network address =
      match Net.dialAttempts env n ctx network port addresses with
      | (some conn, _, dialCalls) => ((conn, none), lookupCalls ++ dialCalls)
      | (none, errs, dialCalls) =>
        ((none, some (GoError.errDial 0 errs)), lookupCalls ++ dialCalls) := by
  rcases haddrs with ⟨hlit, haddr, hcalls⟩ | ⟨hlit, ⟨cname, hres⟩, hcalls⟩
  · subst haddr hcalls
    simp only [Net.DialContext, hsplit, hlit, if_true]
  · subst hcalls
    simp only [Net.DialContext, hsplit, hlit, Net.LookupHost, hres,
      Bool.false_eq_true, if_false]

/-- **C1.** `Net.DialContext` splits the address into host and port; a
literal-IP host causes no resolver call and only that IP is attempted;
otherwise the host is resolved via the stack's DNS operation; the
resolved IPs are attempted in order via the stack's `DialContext` and
the first attempt that returns a nil error yields the facade's
`(conn, nil)` result; and on exhaustion the facade returns a nil
connection with an `ErrDial` aggregate carrying exactly one
endpoint-annotated error per attempt, in attempt order. -/
theorem DialContext_spec (env : NetStdlib) (n : Net) (ctx : Context)
    (network address domain port : String) (addresses : List String)
    (lookupCalls : List StackCall)
    (hsplit : env.SplitHostPort address = ((domain, port), none))
    (haddrs :
      (env.ParseIPIsLiteral domain = true ∧ addresses = [domain] ∧
        lookupCalls = []) ∨
      (env.ParseIPIsLiteral domain = false ∧
        (∃ cname, n.Stack.GetaddrinfoLookupANY ctx domain =
          (addresses, cname, none)) ∧
        lookupCalls = [StackCall.getaddrinfoLookupANY domain])) :
    -- the stack-call trace: the resolution step, then the attempts
    (Net.DialContext env n ctx network address).2 =
      lookupCalls ++ (Net.dialAttempts env n ctx network port addresses).2.2 ∧
    -- literal IP: no resolver call; every stack call dials that IP
    (env.ParseIPIsLiteral domain = true →
      (∀ d, StackCall.getaddrinfoLookupANY d ∉
        (Net.DialContext env n ctx network address).2) ∧
      ∀ call ∈ (Net.DialContext env n ctx network address).2,
        call = attemptCall env network port domain) ∧
    -- the first successful attempt is returned with a nil error, after
    -- dialling exactly the failing prefix before it, in order
    (∀ pre ip rest conn, addresses = pre ++ ip :: rest →
      (∀ a ∈ pre,
        (n.Stack.DialContext ctx network (attemptEndpoint env port a)).2.isSome) →
      n.Stack.DialContext ctx network (attemptEndpoint env port ip) =
        (conn, none) →
      (Net.DialContext env n ctx network address).1 = (conn, none) ∧
      (Net.DialContext env n ctx network address).2 =
        lookupCalls ++ (pre.map (attemptCall env network port) ++
          [attemptCall env network port ip])) ∧
    -- exhaustion: nil connection plus the ErrDial aggregate holding one
    -- endpoint-annotated error per attempt, in attempt order
    ((∀ a ∈ addresses,
        (n.Stack.DialContext ctx network (attemptEndpoint env port a)).2.isSome) →
      (Net.DialContext env n ctx network address).1 =
        (none, some (GoError.errDial 0
          (addresses.map (attemptWrap env n ctx network port)))) ∧
      (Net.DialContext env n ctx network address).2 =
        lookupCalls ++ addresses.map (attemptCall env network port)) := by
  have heq := DialContext_eq env n ctx network address domain port addresses
    lookupCalls hsplit haddrs
  refine ⟨?_, ?_, ?_, ?_⟩
  · rcases hda : Net.dialAttempts env n ctx network port addresses
      with ⟨res, errs, calls⟩
    rw [hda] at heq
    cases res <;> simp [heq]
  · intro hlit
    have hlist : addresses = [domain] ∧ lookupCalls = [] := by
      rcases haddrs with ⟨_, h₁, h₂⟩ | ⟨hlit', _, _⟩
      · exact ⟨h₁, h₂⟩
      · rw [hlit] at hlit'; cases hlit'
    obtain ⟨haddr, hcalls⟩ := hlist
    subst haddr hcalls
    have hshape := dialAttempts_calls_shape env n ctx network port [domain]
    constructor
    · intro d hd
      rcases hda : Net.dialAttempts env n ctx network port [domain]
        with ⟨res, errs, calls⟩
      rw [hda] at heq
      have hd' : StackCall.getaddrinfoLookupANY d ∈ calls := by
        cases res <;> simpa [heq] using hd
      obtain ⟨ip, _, hcallEq⟩ := hshape _ (by rw [hda]; exact hd')
      simp [attemptCall] at hcallEq
    · intro call hcall
      rcases hda : Net.dialAttempts env n ctx network port [domain]
        with ⟨res, errs, calls⟩
      rw [hda] at heq
      have hcall' : call ∈ calls := by
        cases res <;> simpa [heq] using hcall
      obtain ⟨ip, hip, hcallEq⟩ := hshape call (by rw [hda]; exact hcall')
      simp only [List.mem_singleton] at hip
      rwa [hip] at hcallEq
  · intro pre ip rest conn haddr hpre hip
    subst haddr
    rw [dialAttempts_first_success env n ctx network port pre ip rest conn
      hpre hip] at heq
    simp [heq]
  · intro hfail
    rw [dialAttempts_all_fail env n ctx network port addresses hfail] at heq
    simp [heq]

/-! ## `errors.Is` over `ErrDial` aggregates -/

/-- `ErrDial.Is` scans exactly the children: it matches iff `errors.Is`
matches the target against some contained error. -/
theorem ErrDial_Is_iff (children : List GoError) (t : GoError) :
    ErrDial.Is children t = true ↔ ∃ c ∈ children, errorsIs c t = true := by
  induction children with
  | nil => simp [ErrDial.Is]
  | cons c rest ih =>
    simp only [ErrDial.Is, Bool.or_eq_true, ih, List.mem_cons]
    constructor
    · rintro (h | ⟨a, ha, hIs⟩)
      · exact ⟨c, Or.inl rfl, h⟩
      · exact ⟨a, Or.inr ha, hIs⟩
    · rintro ⟨a, ha | ha, hIs⟩
      · exact Or.inl (ha ▸ hIs)
      · exact Or.inr ⟨a, ha, hIs⟩

/-- **C8 (amended).** For every `ErrDial` aggregate and target,
`errors.Is(e, t)` holds iff `t` is the aggregate value itself (Go's
`err == target` fast path, i.e. identical allocation) or `errors.Is`
matches `t` against some contained error; consequently an aggregate with
an empty error list matches exactly the targets that are the aggregate
itself, and no others. -/
theorem errorsIs_errDial_iff :
    (∀ (r : Nat) (children : List GoError) (t : GoError),
      errorsIs (GoError.errDial r children) t = true ↔
        (t.ref = r ∨ ∃ c ∈ children, errorsIs c t = true)) ∧
    (∀ (r : Nat) (t : GoError),
      errorsIs (GoError.errDial r []) t = true ↔ t.ref = r) := by
  have key : ∀ (r : Nat) (children : List GoError) (t : GoError),
      errorsIs (GoError.errDial r children) t = true ↔
        (t.ref = r ∨ ∃ c ∈ children, errorsIs c t = true) := by
    intro r children t
    simp only [errorsIs, Bool.or_eq_true, beq_iff_eq, ErrDial_Is_iff]
    exact or_congr_left (by exact comm)
  refine ⟨key, fun r t => ?_⟩
  rw [key]
  simp

/-- **C8 (counterexample).** An `ErrDial` aggregate with an empty error
list does match a target, namely itself, although no contained error
matches it: `errors.Is(e, t)` is not equivalent to "some contained error
matches `t`". -/
theorem errorsIs_errDial_empty_counterexample :
    errorsIs (GoError.errDial 5 []) (GoError.errDial 5 []) = true ∧
    ¬∃ c ∈ ([] : List GoError), errorsIs c (GoError.errDial 5 []) = true :=
  ⟨rfl, by simp⟩

/-! ## Concrete collaborators used by the witnesses -/

/-- A concrete address-helper behaviour: the addresses used by the
witnesses split at their last colon, `1.2.3.4` is the only literal IP,
and joining concatenates with a colon. -/
def envW : NetStdlib where
  SplitHostPort := fun address =>
    if address = "example.com:443" then (("example.com", "443"), none)
    else if address = "1.2.3.4:443" then (("1.2.3.4", "443"), none)
    else (("", ""), some (GoError.base 100))
  ParseIPIsLiteral := fun s => s = "1.2.3.4"
  JoinHostPort := fun host port => host ++ ":" ++ port

/-- A concrete stack: `example.com` resolves to two addresses, dialling
the first fails, dialling the second succeeds. -/
def stackW : UnderlyingNetwork where
  DialContext := fun _ _ endpoint =>
    if endpoint = "10.0.0.2:443" then (some ⟨1⟩, none)
    else (none, some (GoError.base 7))
  GetaddrinfoLookupANY := fun _ domain =>
    if domain = "example.com" then (["10.0.0.1", "10.0.0.2"], "example.com.", none)
    else ([], "", some (GoError.base 8))
  DefaultCertPool := ⟨1⟩

/-- The facade over `stackW`. -/
def netW : Net := { Stack := stackW }

/-- A live context without deadline. -/
def ctxW : Context :=
  { canceled := false, deadline := none, err := GoError.base 1001 }

/-- **C1 (witness).** Dialling `example.com:443` over `stackW` resolves
once, attempts `10.0.0.1:443` (which fails), then `10.0.0.2:443` (which
succeeds), and returns the successful connection with a nil error. -/
theorem DialContext_spec_witness :
    (Net.DialContext envW netW ctxW "tcp" "example.com:443").1 =
      (some ⟨1⟩, none) ∧
    (Net.DialContext envW netW ctxW "tcp" "example.com:443").2 =
      [StackCall.getaddrinfoLookupANY "example.com",
        StackCall.dialContext "tcp" "10.0.0.1:443",
        StackCall.dialContext "tcp" "10.0.0.2:443"] := by
  have h := DialContext_spec envW netW ctxW "tcp" "example.com:443"
    "example.com" "443" ["10.0.0.1", "10.0.0.2"]
    [StackCall.getaddrinfoLookupANY "example.com"] rfl
    (Or.inr ⟨rfl, ⟨"example.com.", rfl⟩, rfl⟩)
  obtain ⟨-, -, hfirst, -⟩ := h
  have hres := hfirst ["10.0.0.1"] "10.0.0.2" [] (some ⟨1⟩) rfl
    (by intro a ha; simp only [List.mem_singleton] at ha; subst ha; rfl) rfl
  refine ⟨hres.1, ?_⟩
  rw [hres.2]
  rfl

/-! ## Empty resolver results -/

/-- A stack whose resolver succeeds with an empty address list. -/
def stackEmptyRes : UnderlyingNetwork where
  DialContext := fun _ _ _ => (none, some (GoError.base 7))
  GetaddrinfoLookupANY := fun _ _ => ([], "", none)
  DefaultCertPool := ⟨1⟩

/-- The facade over `stackEmptyRes`. -/
def netEmptyRes : Net := { Stack := stackEmptyRes }

/-- **C2 (counterexample).** When the resolver succeeds but returns an
empty address list, `Net.DialContext` does return a dial-aggregate error
containing zero contained errors — not a resolution error. -/
theorem DialContext_emptyResolution_counterexample :
    Net.DialContext envW netEmptyRes ctxW "tcp" "example.com:443" =
      ((none, some (GoError.errDial 0 [])),
        [StackCall.getaddrinfoLookupANY "example.com"]) := rfl

/-- **C2 (amended).** When the address is not a literal IP and the
resolver call succeeds with an empty address list, `Net.DialContext`
makes no dial attempt and returns a nil connection together with an
`ErrDial` aggregate containing zero contained errors (it does not
surface a resolution error). -/
theorem DialContext_emptyResolution (env : NetStdlib) (n : Net)
    (ctx : Context) (network address domain port cname : String)
    (hsplit : env.SplitHostPort address = ((domain, port), none))
    (hlit : env.ParseIPIsLiteral domain = false)
    (hres : n.Stack.GetaddrinfoLookupANY ctx domain = ([], cname, none)) :
    Net.DialContext env n ctx network address =
      ((none, some (GoError.errDial 0 [])),
        [StackCall.getaddrinfoLookupANY domain]) := by
  have heq := DialContext_eq env n ctx network address domain port []
    [StackCall.getaddrinfoLookupANY domain] hsplit
    (Or.inr ⟨hlit, ⟨cname, hres⟩, rfl⟩)
  simpa [Net.dialAttempts] using heq

/-- **C2 (witness).** The amended statement at the concrete stack whose
resolver succeeds with an empty list. -/
theorem DialContext_emptyResolution_witness :
    Net.DialContext envW netEmptyRes ctxW "tcp" "example.com:443" =
      ((none, some (GoError.errDial 0 [])),
        [StackCall.getaddrinfoLookupANY "example.com"]) :=
  DialContext_emptyResolution envW netEmptyRes ctxW "tcp" "example.com:443"
    "example.com" "443" "" rfl rfl rfl

/-! ## Cancelled contexts -/

/-- The `context.Canceled` sentinel. -/
def contextCanceled : GoError := GoError.base 1001

/-- A context that is already cancelled. -/
def ctxCanceledW : Context :=
  { canceled := true, deadline := none, err := contextCanceled }

/-- A stack whose dial honours cancellation: with a cancelled context
every dial fails with the `context.Canceled` sentinel. -/
def stackCancelAware : UnderlyingNetwork where
  DialContext := fun ctx _ _ =>
    if ctx.canceled then (none, some contextCanceled) else (some ⟨1⟩, none)
  GetaddrinfoLookupANY := fun _ _ => ([], "", some (GoError.base 8))
  DefaultCertPool := ⟨1⟩

/-- The facade over `stackCancelAware`. -/
def netCancelAware : Net := { Stack := stackCancelAware }

/-- **C4 (counterexample).** With a context that is already cancelled
before the first dial attempt and a literal-IP address,
`Net.DialContext` still calls into the underlying stack (one
`DialContext` stack call is made), and the value returned is not a bare
cancellation error but an `ErrDial` aggregate wrapping the attempt's
cancellation failure. -/
theorem DialContext_canceled_counterexample :
    ctxCanceledW.canceled = true ∧
    (Net.DialContext envW netCancelAware ctxCanceledW "tcp" "1.2.3.4:443").2 =
      [StackCall.dialContext "tcp" "1.2.3.4:443"] ∧
    (Net.DialContext envW netCancelAware ctxCanceledW "tcp" "1.2.3.4:443").1 =
      (none, some (GoError.errDial 0
        [GoError.wrapf 0 "1.2.3.4:443" contextCanceled])) :=
  ⟨rfl, rfl, rfl⟩

/-- **C4 (amended).** `Net.DialContext` performs no cancellation check
of its own: even under a context cancelled before the first attempt, it
invokes the underlying stack once per address (the resolution and every
per-IP attempt are forwarded to the stack together with the context, and
cancellation is honoured only inside those stack operations).  When each
attempt consequently fails with an error matching the cancellation
sentinel, the facade returns an `ErrDial` aggregate that matches the
cancellation sentinel through `errors.Is`. -/
theorem DialContext_canceled (env : NetStdlib) (n : Net) (ctx : Context)
    (network address domain port : String) (addresses : List String)
    (lookupCalls : List StackCall) (target : GoError)
    (hsplit : env.SplitHostPort address = ((domain, port), none))
    (haddrs :
      (env.ParseIPIsLiteral domain = true ∧ addresses = [domain] ∧
        lookupCalls = []) ∨
      (env.ParseIPIsLiteral domain = false ∧
        (∃ cname, n.Stack.GetaddrinfoLookupANY ctx domain =
          (addresses, cname, none)) ∧
        lookupCalls = [StackCall.getaddrinfoLookupANY domain]))
    (_hcancel : ctx.canceled = true)
    (hne : addresses ≠ [])
    (hfail : ∀ a ∈ addresses,
      (n.Stack.DialContext ctx network (attemptEndpoint env port a)).2.isSome ∧
      errorsIs
        ((n.Stack.DialContext ctx network (attemptEndpoint env port a)).2.getD
          (GoError.base 0)) target = true) :
    (Net.DialContext env n ctx network address).2 =
      lookupCalls ++ addresses.map (attemptCall env network port) ∧
    (Net.DialContext env n ctx network address).2 ≠ [] ∧
    ∃ e, (Net.DialContext env n ctx network address).1 = (none, some e) ∧
      errorsIs e target = true := by
  have heq := DialContext_eq env n ctx network address domain port addresses
    lookupCalls hsplit haddrs
  rw [dialAttempts_all_fail env n ctx network port addresses
    (fun a ha => (hfail a ha).1)] at heq
  refine ⟨by simp [heq], ?_, ?_⟩
  · rcases addresses with _ | ⟨a, rest⟩
    · exact absurd rfl hne
    · simp [heq]
  · refine ⟨GoError.errDial 0
      (addresses.map (attemptWrap env n ctx network port)), by simp [heq], ?_⟩
    rcases addresses with _ | ⟨a, rest⟩
    · exact absurd rfl hne
    · have ha := (hfail a (List.mem_cons_self a rest)).2
      simp only [List.map_cons, errorsIs, ErrDial.Is, attemptWrap,
        Bool.or_eq_true]
      exact Or.inr (Or.inl (Or.inr ha))

/-- **C4 (witness).** The amended statement at the cancellation-aware
stack: one attempt is made to the literal IP, and the returned aggregate
matches `context.Canceled`. -/
theorem DialContext_canceled_witness :
    (Net.DialContext envW netCancelAware ctxCanceledW "tcp" "1.2.3.4:443").2 =
      [] ++ [StackCall.dialContext "tcp" "1.2.3.4:443"] ∧
    (Net.DialContext envW netCancelAware ctxCanceledW "tcp" "1.2.3.4:443").2 ≠ [] ∧
    ∃ e, (Net.DialContext envW netCancelAware ctxCanceledW "tcp"
        "1.2.3.4:443").1 = (none, some e) ∧
      errorsIs e contextCanceled = true := by
  have h := DialContext_canceled envW netCancelAware ctxCanceledW "tcp"
    "1.2.3.4:443" "1.2.3.4" "443" ["1.2.3.4"] [] contextCanceled rfl
    (Or.inl ⟨rfl, rfl, rfl⟩) rfl (by simp)
    (by intro a ha; simp only [List.mem_singleton] at ha; subst ha
        exact ⟨rfl, rfl⟩)
  simpa [attemptCall, attemptEndpoint, envW] using h

/-! ## The DPI throttle rule: characterization and determinism -/

/-- **C3.** `DPIThrottleTrafficForTLSSNI.Filter` returns a policy iff
the direction is client-to-server, the transport protocol is TCP, and
the TLS ClientHello server name parses successfully and equals the
configured SNI; the policy then carries the configured PLR, zero delay,
and NONE flags.  In every other case the rule declines. -/
theorem Filter_spec (r : DPIThrottleTrafficForTLSSNI) (d : DPIDirection)
    (p : DissectedPacket) :
    r.Filter d p =
      if d = DPIDirection.clientToServer ∧
          p.transportProtocol = IPProtocolTCP ∧
          p.tlsServerName = some r.SNI then
        (some { Delay := 0, Flags := DPIFlagsNone, PLR := r.PLR }, true)
      else (none, false) := by
  cases d with
  | serverToClient => simp [DPIThrottleTrafficForTLSSNI.Filter]
  | clientToServer =>
    by_cases hproto : p.transportProtocol = IPProtocolTCP
    · cases hsni : p.tlsServerName with
      | none => simp [DPIThrottleTrafficForTLSSNI.Filter, hproto, hsni]
      | some sni =>
        by_cases hs : sni = r.SNI
        · simp [DPIThrottleTrafficForTLSSNI.Filter, hproto, hsni, hs]
        · simp [DPIThrottleTrafficForTLSSNI.Filter, hproto, hsni, hs]
    · simp [DPIThrottleTrafficForTLSSNI.Filter, hproto]

/-- **C9.** `Filter` is deterministic: its verdict is a function of the
direction, the rule's configuration, and the packet's transport protocol
and TLS server-name parse; in particular two calls with the same
direction and the same packet return the same decision and an identical
policy, whatever the remaining packet fields (which are only logged). -/
theorem Filter_deterministic (r r' : DPIThrottleTrafficForTLSSNI)
    (d : DPIDirection) (p p' : DissectedPacket)
    (hSNI : r.SNI = r'.SNI) (hPLR : r.PLR = r'.PLR)
    (hproto : p.transportProtocol = p'.transportProtocol)
    (hsni : p.tlsServerName = p'.tlsServerName) :
    r.Filter d p = r'.Filter d p' := by
  cases d with
  | serverToClient => simp [DPIThrottleTrafficForTLSSNI.Filter]
  | clientToServer =>
    simp only [DPIThrottleTrafficForTLSSNI.Filter, hproto, hsni, hSNI, hPLR]

/-- A throttling rule configured for the SNI `ndt0.local`. -/
def ruleW : DPIThrottleTrafficForTLSSNI := { PLR := 1 / 10, SNI := "ndt0.local" }

/-- A dissected TCP ClientHello packet carrying the SNI `ndt0.local`. -/
def packetW : DissectedPacket :=
  { transportProtocol := IPProtocolTCP, tlsServerName := some "ndt0.local",
    sourceIPAddress := "10.0.0.2", destinationIPAddress := "10.0.0.1",
    sourcePort := 32768, destinationPort := 443 }

/-- The same flow observed with different log-only fields. -/
def packetW' : DissectedPacket :=
  { transportProtocol := IPProtocolTCP, tlsServerName := some "ndt0.local",
    sourceIPAddress := "10.0.0.7", destinationIPAddress := "10.0.0.1",
    sourcePort := 54321, destinationPort := 443 }

/-- **C9 (witness).** The determinism theorem applied at two concrete
packets that agree on the fields the verdict reads. -/
theorem Filter_deterministic_witness :
    ruleW.Filter DPIDirection.clientToServer packetW =
      ruleW.Filter DPIDirection.clientToServer packetW' :=
  Filter_deterministic ruleW ruleW DPIDirection.clientToServer packetW
    packetW' rfl rfl rfl rfl

/-! ## TLS dialing theorems -/

/-- The TLS client connection that `Net.DialTLSContext` builds over an
inner connection: `tls.Client(conn, config)` with
`config.RootCAs = Stack.DefaultCertPool()` and
`config.ServerName = hostname`. -/
def tlsConnOf (n : Net) (conn : Option Conn) (hostname : String) :
    TLSClientConn :=
  { underlying := conn, RootCAs := n.Stack.DefaultCertPool,
    ServerName := hostname }

/-- How `Net.DialTLSContext` reduces once the address splits cleanly
and the inner dial succeeds. -/
theorem DialTLSContext_eq (env : NetStdlib) (n : Net) (ctx : Context)
    (network address hostname port : String) (outcome : HandshakeOutcome)
    (conn : Option Conn) (calls : List StackCall)
    (hsplit : env.SplitHostPort address = ((hostname, port), none))
    (hdial : Net.DialContext env n ctx network address = ((conn, none), calls)) :
    Net.DialTLSContext env n ctx network address outcome =
      match Net.tlsHandshake ctx (tlsConnOf n conn hostname) outcome with
      | (some err, events) =>
        ((none, some err), calls, events ++ [ConnEvent.closeConn conn])
      | (none, events) =>
        ((some (tlsConnOf n conn hostname), none), calls, events) := by
  simp only [Net.DialTLSContext, hsplit, hdial, tlsConnOf]

/-- **C5.** `Net.DialTLSContext` never returns both a non-nil connection
and a non-nil error; and whenever the inner dial succeeds but the
handshake step returns an error (a failed handshake, or the context
winning the `select` on cancellation), the underlying connection is
closed before the error is returned — the close event follows the
handshake events in the connection-event trace, and the returned
connection is nil. -/
theorem DialTLSContext_no_leak (env : NetStdlib) (n : Net) (ctx : Context)
    (network address : String) (outcome : HandshakeOutcome) :
    (¬((Net.DialTLSContext env n ctx network address outcome).1.1.isSome ∧
      (Net.DialTLSContext env n ctx network address outcome).1.2.isSome)) ∧
    (∀ hostname port conn calls err,
      env.SplitHostPort address = ((hostname, port), none) →
      Net.DialContext env n ctx network address = ((conn, none), calls) →
      (Net.tlsHandshake ctx (tlsConnOf n conn hostname) outcome).1 =
        some err →
      Net.DialTLSContext env n ctx network address outcome =
        ((none, some err), calls,
          (Net.tlsHandshake ctx (tlsConnOf n conn hostname) outcome).2 ++
            [ConnEvent.closeConn conn])) := by
  constructor
  · rintro ⟨hconn, herr⟩
    rcases hsp : env.SplitHostPort address with ⟨hp, e⟩
    cases e with
    | some e =>
      simp only [Net.DialTLSContext, hsp] at hconn
      simp at hconn
    | none =>
      rcases hp with ⟨hostname, port⟩
      rcases hd : Net.DialContext env n ctx network address
        with ⟨⟨conn, derr⟩, calls⟩
      cases derr with
      | some e =>
        simp only [Net.DialTLSContext, hsp, hd] at hconn
        simp at hconn
      | none =>
        have heq := DialTLSContext_eq env n ctx network address hostname port
          outcome conn calls hsp hd
        rcases hh : Net.tlsHandshake ctx (tlsConnOf n conn hostname) outcome
          with ⟨herr', events⟩
        rw [hh] at heq
        cases herr' with
        | some e => rw [heq] at hconn; simp at hconn
        | none => rw [heq] at herr; simp at herr
  · intro hostname port conn calls err hsp hd hh
    have heq := DialTLSContext_eq env n ctx network address hostname port
      outcome conn calls hsp hd
    rcases hhs : Net.tlsHandshake ctx (tlsConnOf n conn hostname) outcome
      with ⟨herr', events⟩
    rw [hhs] at heq hh
    simp only at hh
    subst hh
    simpa using heq

/-- **C5 (witness).** A failing handshake over the concrete stack: the
returned connection is nil, the handshake error is surfaced, and the
trace ends by closing the underlying connection. -/
theorem DialTLSContext_no_leak_witness :
    Net.DialTLSContext envW netW ctxW "tcp" "example.com:443"
      (HandshakeOutcome.completed (some (GoError.base 9))) =
      ((none, some (GoError.base 9)),
        [StackCall.getaddrinfoLookupANY "example.com",
          StackCall.dialContext "tcp" "10.0.0.1:443",
          StackCall.dialContext "tcp" "10.0.0.2:443"],
        [ConnEvent.clientHandshakeStart (tlsConnOf netW (some ⟨1⟩) "example.com"),
          ConnEvent.closeConn (some ⟨1⟩)]) := by
  have h := (DialTLSContext_no_leak envW netW ctxW "tcp" "example.com:443"
    (HandshakeOutcome.completed (some (GoError.base 9)))).2
    "example.com" "443" (some ⟨1⟩)
    [StackCall.getaddrinfoLookupANY "example.com",
      StackCall.dialContext "tcp" "10.0.0.1:443",
      StackCall.dialContext "tcp" "10.0.0.2:443"]
    (GoError.base 9) rfl rfl rfl
  rw [h]
  rfl

/-- **C6.** Under a clean split and a successful inner dial, the TLS
client handshake of `Net.DialTLSContext` is started on a connection
configured with the stack's `DefaultCertPool` as root-CA set and with
the pre-resolution hostname as server name; when the context carries a
deadline, that exact deadline is set as the connection's read/write
deadline; the handshake runs as a background task and the handshake step
returns the context's error if cancellation wins the `select` and the
handshake's own result if completion wins; and any returned connection
is exactly the configured TLS client connection. -/
theorem DialTLSContext_config (env : NetStdlib) (n : Net) (ctx : Context)
    (network address hostname port : String) (outcome : HandshakeOutcome)
    (conn : Option Conn) (calls : List StackCall)
    (hsplit : env.SplitHostPort address = ((hostname, port), none))
    (hdial : Net.DialContext env n ctx network address = ((conn, none), calls)) :
    ConnEvent.clientHandshakeStart (tlsConnOf n conn hostname) ∈
      (Net.DialTLSContext env n ctx network address outcome).2.2 ∧
    (∀ d, ctx.deadline = some d →
      ConnEvent.setDeadline (tlsConnOf n conn hostname) (some d) ∈
        (Net.DialTLSContext env n ctx network address outcome).2.2) ∧
    (Net.tlsHandshake ctx (tlsConnOf n conn hostname) outcome).1 =
      (match outcome with
        | HandshakeOutcome.ctxDone => some ctx.err
        | HandshakeOutcome.completed err => err) ∧
    (∀ tc, (Net.DialTLSContext env n ctx network address outcome).1.1 =
        some tc →
      tc = tlsConnOf n conn hostname) := by
  have heq := DialTLSContext_eq env n ctx network address hostname port
    outcome conn calls hsplit hdial
  rcases hhs : Net.tlsHandshake ctx (tlsConnOf n conn hostname) outcome
    with ⟨herr, events⟩
  rw [hhs] at heq
  have hmem : ∀ ev ∈ events,
      ev ∈ (Net.DialTLSContext env n ctx network address outcome).2.2 := by
    intro ev hev
    cases herr with
    | some e => rw [heq]; exact List.mem_append_left _ hev
    | none => rw [heq]; exact hev
  have hevents : events =
      (Net.tlsHandshake ctx (tlsConnOf n conn hostname) outcome).2 := by
    rw [hhs]
  refine ⟨?_, ?_, ?_, ?_⟩
  · refine hmem _ ?_
    rw [hevents]
    cases hdl : ctx.deadline <;> simp [Net.tlsHandshake, hdl]
  · intro d hdl
    refine hmem _ ?_
    rw [hevents]
    simp [Net.tlsHandshake, hdl]
  · refine (congrArg Prod.fst hhs.symm).trans ?_
    cases hdl : ctx.deadline <;> cases outcome <;>
      simp [Net.tlsHandshake, hdl]
  · intro tc htc
    cases herr with
    | some e => rw [heq] at htc; simp at htc
    | none =>
      rw [heq] at htc
      simp only [Option.some.injEq] at htc
      exact htc.symm

/-- A live context carrying a deadline. -/
def ctxDeadlineW : Context :=
  { canceled := false, deadline := some 5000000000,
    err := GoError.base 1002 }

/-- **C6 (witness).** The configuration theorem at the concrete stack
under a context with a deadline and a completing handshake. -/
theorem DialTLSContext_config_witness :
    ConnEvent.clientHandshakeStart (tlsConnOf netW (some ⟨1⟩) "example.com") ∈
      (Net.DialTLSContext envW netW ctxDeadlineW "tcp" "example.com:443"
        (HandshakeOutcome.completed none)).2.2 ∧
    ConnEvent.setDeadline (tlsConnOf netW (some ⟨1⟩) "example.com")
        (some 5000000000) ∈
      (Net.DialTLSContext envW netW ctxDeadlineW "tcp" "example.com:443"
        (HandshakeOutcome.completed none)).2.2 := by
  have h := DialTLSContext_config envW netW ctxDeadlineW "tcp"
    "example.com:443" "example.com" "443" (HandshakeOutcome.completed none)
    (some ⟨1⟩)
    [StackCall.getaddrinfoLookupANY "example.com",
      StackCall.dialContext "tcp" "10.0.0.1:443",
      StackCall.dialContext "tcp" "10.0.0.2:443"] rfl rfl
  exact ⟨h.1, h.2.1 5000000000 rfl⟩

/-- **C10.** For a successful `Net.DialTLSContext` call under a context
carrying a deadline, the deadline set on the connection for the
handshake is cleared (reset to the zero time, by the deferred
`SetDeadline(time.Time{})`) before the connection is returned: the
connection-event trace is exactly set-deadline, start-handshake,
clear-deadline, and the call returns the TLS connection with a nil
error, so no I/O after the return is bound by the handshake deadline. -/
theorem DialTLSContext_deadline_cleared (env : NetStdlib) (n : Net)
    (ctx : Context) (network address hostname port : String)
    (conn : Option Conn) (calls : List StackCall) (d : Int)
    (hsplit : env.SplitHostPort address = ((hostname, port), none))
    (hdial : Net.DialContext env n ctx network address = ((conn, none), calls))
    (hdl : ctx.deadline = some d) :
    Net.DialTLSContext env n ctx network address
        (HandshakeOutcome.completed none) =
      ((some (tlsConnOf n conn hostname), none), calls,
        [ConnEvent.setDeadline (tlsConnOf n conn hostname) (some d),
          ConnEvent.clientHandshakeStart (tlsConnOf n conn hostname),
          ConnEvent.setDeadline (tlsConnOf n conn hostname) none]) := by
  have heq := DialTLSContext_eq env n ctx network address hostname port
    (HandshakeOutcome.completed none) conn calls hsplit hdial
  rw [heq]
  simp [Net.tlsHandshake, hdl]

/-- **C10 (witness).** The cleared-deadline theorem at the concrete
stack and the deadline-carrying context. -/
theorem DialTLSContext_deadline_cleared_witness :
    Net.DialTLSContext envW netW ctxDeadlineW "tcp" "example.com:443"
        (HandshakeOutcome.completed none) =
      ((some (tlsConnOf netW (some ⟨1⟩) "example.com"), none),
        [StackCall.getaddrinfoLookupANY "example.com",
          StackCall.dialContext "tcp" "10.0.0.1:443",
          StackCall.dialContext "tcp" "10.0.0.2:443"],
        [ConnEvent.setDeadline (tlsConnOf netW (some ⟨1⟩) "example.com")
            (some 5000000000),
          ConnEvent.clientHandshakeStart
            (tlsConnOf netW (some ⟨1⟩) "example.com"),
          ConnEvent.setDeadline (tlsConnOf netW (some ⟨1⟩) "example.com")
            none]) :=
  DialTLSContext_deadline_cleared envW netW ctxDeadlineW "tcp"
    "example.com:443" "example.com" "443" (some ⟨1⟩)
    [StackCall.getaddrinfoLookupANY "example.com",
      StackCall.dialContext "tcp" "10.0.0.1:443",
      StackCall.dialContext "tcp" "10.0.0.2:443"]
    5000000000 rfl rfl rfl

/-! ## The TLS listener -/

/-- `Net.ListenTLS` (net.go line 155): when the inner `ListenTCP`
succeeds, the returned listener wraps it together with the given TLS
configuration; on failure the error is propagated.  The inner listener's
outcome is a parameter. -/
def Net.ListenTLS (listenErr : Option GoError) (config : TLSConfig) :
    Option NetListenerTLS × Option GoError :=
  match listenErr with
  | some err => (none, some err)
  | none => (some { config := config }, none)

/-- **C7.** For every connection accepted by the listener built by
`Net.ListenTLS`, `Accept` performs a server-side TLS handshake before
surfacing the connection, under a context whose deadline is exactly ten
seconds from the accept instant — a fixed bound independent of the
inputs (`Accept` receives no caller deadline at all); if the handshake
fails, the accepted connection is closed and `Accept` returns the
handshake error; if it succeeds, the TLS server connection is
surfaced. -/
theorem ListenTLS_Accept_spec (listenConfig : TLSConfig) (lw : NetListenerTLS)
    (now : Int) (conn : Option Conn)
    (handshake : Option Int → Option GoError)
    (hlw : Net.ListenTLS none listenConfig = (some lw, none)) :
    -- the listener carries the configuration given to ListenTLS
    lw.config = listenConfig ∧
    -- the handshake always runs first, under the fixed 10-second bound
    (NetListenerTLS.Accept lw now (conn, none) handshake).2 =
      ConnEvent.serverHandshake { underlying := conn, config := lw.config }
          (some (now + tenSeconds)) ::
        (match handshake (some (now + tenSeconds)) with
          | some _ => [ConnEvent.closeConn conn]
          | none => []) ∧
    -- a connection is surfaced only after a successful handshake
    (∀ tc, (NetListenerTLS.Accept lw now (conn, none) handshake).1.1 =
        some tc →
      handshake (some (now + tenSeconds)) = none ∧
      tc = { underlying := conn, config := lw.config }) ∧
    -- handshake failure: close the accepted connection, return the error
    (∀ err, handshake (some (now + tenSeconds)) = some err →
      NetListenerTLS.Accept lw now (conn, none) handshake =
        ((none, some err),
          [ConnEvent.serverHandshake
              { underlying := conn, config := lw.config }
              (some (now + tenSeconds)),
            ConnEvent.closeConn conn])) ∧
    -- handshake success: surface the TLS server connection
    (handshake (some (now + tenSeconds)) = none →
      NetListenerTLS.Accept lw now (conn, none) handshake =
        ((some { underlying := conn, config := lw.config }, none),
          [ConnEvent.serverHandshake
              { underlying := conn, config := lw.config }
              (some (now + tenSeconds))])) := by
  have hconfig : lw.config = listenConfig := by
    simp only [Net.ListenTLS, Prod.mk.injEq, Option.some.injEq] at hlw
    rw [← hlw.1]
  refine ⟨hconfig, ?_, ?_, ?_, ?_⟩
  · cases hh : handshake (some (now + tenSeconds)) with
    | some err => simp [NetListenerTLS.Accept, hh]
    | none => simp [NetListenerTLS.Accept, hh]
  · intro tc htc
    cases hh : handshake (some (now + tenSeconds)) with
    | some err =>
      simp only [NetListenerTLS.Accept, hh] at htc
      simp at htc
    | none =>
      simp only [NetListenerTLS.Accept, hh, Option.some.injEq] at htc
      exact ⟨rfl, htc.symm⟩
  · intro err hh
    simp [NetListenerTLS.Accept, hh]
  · intro hh
    simp [NetListenerTLS.Accept, hh]

/-- **C7 (witness).** A failing server handshake on a concrete accepted
connection: the connection is closed and the error is returned, after a
handshake bounded by a deadline ten seconds past the accept instant. -/
theorem ListenTLS_Accept_spec_witness :
    NetListenerTLS.Accept { config := ⟨1⟩ } 0 (some ⟨2⟩, none)
        (fun _ => some (GoError.base 9)) =
      ((none, some (GoError.base 9)),
        [ConnEvent.serverHandshake
            { underlying := some ⟨2⟩, config := ⟨1⟩ } (some 10000000000),
          ConnEvent.closeConn (some ⟨2⟩)]) := by
  have h := (ListenTLS_Accept_spec ⟨1⟩ { config := ⟨1⟩ } 0 (some ⟨2⟩)
    (fun _ => some (GoError.base 9)) rfl).2.2.2.1 (GoError.base 9) rfl
  simpa [tenSeconds] using h

end Netem
